import Mathlib

/-!
A verification development for the solace-ai-connector runtime.

The definitions below are a shallow embedding of the Python source:

* `components/component_base.py` — the per-component runner
  (`ComponentBase.process_event`, `send_message`, `handle_error`,
  `handle_negative_acknowledgements`, `grow_sleep_time`, `run`);
* `flow/request_response_flow_controller.py` — the request/response
  controller (`do_broker_request_response`, `send_message`);
* `common/messaging/dev_broker_messaging.py` — the in-process development
  broker (`send_message`, `receive_message`, `subscribe`, `ack_message`,
  `_get_matching_queue_ids`, `_subscription_to_regex`, `_topic_matches`);
* `command_control/entity_registry.py` — the entity registry
  (`register_entity`, `deregister_entity`, `_register_endpoint`,
  `_path_template_to_regex`);
* `command_control/tracing.py` — the tracing system (`emit_trace`,
  `_get_level_value`).

Python values that these code paths treat opaquely (payloads, user
properties, scratch data) are embedded as a small JSON-like `Val` type with
Python truthiness.  The message-envelope callback stacks (`common/message.py`
is not part of the sources available here) are modelled from the spec.
-/

/-- A JSON-like value standing in for the arbitrary Python values that the
runtime carries opaquely (payloads, user properties, expression results). -/
inductive Val where
  | vnone : Val
  | vbool : Bool → Val
  | vint : Int → Val
  | vstr : String → Val
  | vlist : List Val → Val
  | vdict : List (String × Val) → Val

/-- Python truthiness of a `Val` (`bool(x)`): `None`, `False`, `0`, `""`,
empty list and empty dict are falsy, everything else is truthy. -/
def Val.truthy : Val → Bool
  | .vnone => false
  | .vbool b => b
  | .vint n => n != 0
  | .vstr s => s != ""
  | .vlist l => !l.isEmpty
  | .vdict l => !l.isEmpty

/-- Negative-acknowledgement outcome (`common.Message_NACK_Outcome`):
redeliverable failure vs poison-message rejection. -/
inductive NackOutcome where
  | FAILED : NackOutcome
  | REJECTED : NackOutcome
deriving DecidableEq, Repr

/-- The data fields of a message envelope: payload, topic, user properties,
scratch user data, and `previous` (the preceding component's output,
initially `None`).  Input transforms operate only on these fields, never on
the callback stacks. -/
structure MsgData where
  payload : Val
  topic : String
  user_properties : List (String × Val)
  user_data : Val
  previous : Option Val

/-- Modelled from the spec: the message envelope (`common/message.py` is not
among the available sources).  It wraps the data fields together with the two
ordered callback stacks; callbacks are embedded as opaque identifiers. -/
structure Message where
  data : MsgData
  ack_callbacks : List Nat
  nack_callbacks : List Nat

/-- Modelled from the spec: `Message.add_acknowledgement` pushes an ack
callback onto the envelope's ack stack. -/
def Message.add_acknowledgement (m : Message) (cb : Nat) : Message :=
  { m with ack_callbacks := m.ack_callbacks ++ [cb] }

/-- Modelled from the spec: `Message.add_negative_acknowledgements` pushes a
nack callback onto the envelope's nack stack. -/
def Message.add_negative_acknowledgements (m : Message) (cb : Nat) : Message :=
  { m with nack_callbacks := m.nack_callbacks ++ [cb] }

/-- Modelled from the spec: `Message.call_acknowledgements` runs the pending
ack callbacks and drains both stacks (spec invariants: each chain fires at
most once, and firing either chain drains both stacks).  Returns the list of
callbacks that ran together with the drained envelope. -/
def Message.call_acknowledgements (m : Message) : List Nat × Message :=
  (m.ack_callbacks, { m with ack_callbacks := [], nack_callbacks := [] })

/-- Modelled from the spec: `Message.call_negative_acknowledgements` runs the
pending nack callbacks, each with the given outcome, and drains both stacks.
Returns the (callback, outcome) pairs that ran together with the drained
envelope. -/
def Message.call_negative_acknowledgements (m : Message) (outcome : NackOutcome) :
    List (Nat × NackOutcome) × Message :=
  (m.nack_callbacks.map (fun cb => (cb, outcome)),
   { m with ack_callbacks := [], nack_callbacks := [] })

/-- `Message.set_previous`: store a component's output in the envelope. -/
def Message.set_previous (m : Message) (v : Val) : Message :=
  { m with data := { m.data with previous := some v } }

/-- Modelled from the spec: the event variant transported between components
(`common/event.py` is not among the available sources): MESSAGE, TIMER and
CACHE_EXPIRY events. -/
inductive Event where
  | message : Message → Event
  | timer : Val → Event
  | cacheExpiry : Val → Event

/-- Exception types are embedded by name (Python `type(e).__name__`). -/
abbrev ExcType := String

/-- `ComponentBase.nack_reaction_to_exception`'s default implementation:
always `REJECTED`, regardless of the exception type. -/
def nack_reaction_to_exception_default (_t : ExcType) : NackOutcome :=
  NackOutcome.REJECTED

/-- The behaviour of one `invoke` call on a (transformed) message: either it
raises an exception, or it returns with the value of the
`current_message_has_been_discarded` flag and an optional result.
(`invoke` is abstract in `ComponentBase`; concrete components supply it.) -/
abbrev InvokeBehavior := Except ExcType (Bool × Option Val)

/-- The slice of `ComponentBase` state that the runner code paths under
verification read.  `transform` is the configured input-transform pipeline
(`Transforms.transform` rewrites only the envelope's data fields); `invokeB`
is the concrete component's `invoke`; `ackCallback` / `nackCallback` are
`get_acknowledgement_callback` / `get_negative_acknowledgement_callback`
(`none` when the component defines none); `nackReaction` is
`nack_reaction_to_exception`; `hasNext` is whether `next_component` is set;
`hasErrorQueue` is whether `error_queue` is configured. -/
structure Component where
  name : String
  flowName : String
  hasNext : Bool
  ackCallback : Option Nat
  nackCallback : Option Nat
  nackReaction : ExcType → NackOutcome
  transform : MsgData → MsgData
  invokeB : MsgData → InvokeBehavior
  hasErrorQueue : Bool
  putErrorsInErrorQueue : Bool

/-- The error envelope that `ComponentBase.handle_error` puts on the error
queue: the exception name, the component location, the failing message's
fields, and the user properties copied onto the wrapping `Message`.
(The Python `text`/`traceback` strings are runtime artifacts carrying the
same information as the exception and are not modelled.) -/
structure ErrorEnvelope where
  excName : ExcType
  component : String
  flow : String
  msgInfo : Option MsgData
  envUserProperties : List (String × Val)

/-- The observable outcome of the runner processing one event: which ack
callbacks ran, which nack callbacks ran (with which outcome), the message
enqueued onto the next component's input channel (if any), the error
envelopes put on the error queue, the exception that propagated out of
`process_event` (if any), and the final state of the envelope. -/
structure ProcOutcome where
  ackFired : List Nat
  nackFired : List (Nat × NackOutcome)
  forwarded : Option Message
  errorPuts : List ErrorEnvelope
  raised : Option ExcType
  finalMsg : Message

/-- `ComponentBase.handle_error`: if no error queue is configured (or the
component opts out), return immediately; otherwise record the failing
message's fields, fire its ack chain, and put an error envelope on the error
queue.  Returns (acks run, updated message, error puts). -/
def handleError (c : Component) (e : ExcType) (msg : Option Message) :
    List Nat × Option Message × List ErrorEnvelope :=
  if c.hasErrorQueue && c.putErrorsInErrorQueue then
    match msg with
    | some m =>
        let (acksRun, m') := m.call_acknowledgements
        (acksRun, some m',
          [{ excName := e, component := c.name, flow := c.flowName,
             msgInfo := some m.data,
             envUserProperties := m.data.user_properties }])
    | none =>
        ([], none,
          [{ excName := e, component := c.name, flow := c.flowName,
             msgInfo := none, envUserProperties := [] }])
  else ([], msg, [])

/-- `ComponentBase.process_pre_invoke` (as it affects the envelope): push the
component's nack callback (if any), then apply the input transforms.  The
result is the envelope as it stands when `invoke` is called. -/
def preInvokeMsg (c : Component) (m0 : Message) : Message :=
  let m1 := match c.nackCallback with
            | some cb => m0.add_negative_acknowledgements cb
            | none => m0
  { m1 with data := c.transform m1.data }

/-- `ComponentBase.process_event`, MESSAGE branch, together with
`process_post_invoke`, `send_message` and
`handle_negative_acknowledgements`:

1. `process_pre_invoke` (see `preInvokeMsg`).
2. `invoke`.  If it raises: fire the nack chain with
   `nack_reaction_to_exception(type(e))`, then `handle_error` (which fires
   the now-drained ack chain and puts an error envelope), and re-raise.
3. If the component discarded the message: fire the ack chain.
4. Otherwise, if the result is non-`None`: `set_previous(result)`, push the
   component's ack callback (if any), and `send_message` — enqueue onto the
   next component when one exists, otherwise (tail) fire the ack chain.
5. A `None` result without discard does nothing. -/
def processMessage (c : Component) (m0 : Message) : ProcOutcome :=
  let m2 : Message := preInvokeMsg c m0
  match c.invokeB m2.data with
  | .error e =>
      let (nacksRun, m3) := m2.call_negative_acknowledgements (c.nackReaction e)
      let (acksRun, m4, errPuts) := handleError c e (some m3)
      { ackFired := acksRun, nackFired := nacksRun, forwarded := none,
        errorPuts := errPuts, raised := some e, finalMsg := m4.getD m3 }
  | .ok (discarded, result) =>
      if discarded then
        let (acksRun, m3) := m2.call_acknowledgements
        { ackFired := acksRun, nackFired := [], forwarded := none,
          errorPuts := [], raised := none, finalMsg := m3 }
      else
        match result with
        | none =>
            { ackFired := [], nackFired := [], forwarded := none,
              errorPuts := [], raised := none, finalMsg := m2 }
        | some r =>
            let m3 := m2.set_previous r
            let m4 := match c.ackCallback with
                      | some cb => m3.add_acknowledgement cb
                      | none => m3
            if c.hasNext then
              { ackFired := [], nackFired := [], forwarded := some m4,
                errorPuts := [], raised := none, finalMsg := m4 }
            else
              let (acksRun, m5) := m4.call_acknowledgements
              { ackFired := acksRun, nackFired := [], forwarded := none,
                errorPuts := [], raised := none, finalMsg := m5 }

/-- One runner iteration on a MESSAGE event (`ComponentBase.run`'s body):
`process_event`, and if it raised, the loop's exception handler calls
`handle_component_error` → `handle_error` a second time on the same
(already-drained) envelope, producing a second error envelope. -/
def runnerStep (c : Component) (m : Message) : ProcOutcome :=
  let o := processMessage c m
  match o.raised with
  | none => o
  | some e =>
      let (acks2, m', errPuts2) := handleError c e (some o.finalMsg)
      { o with ackFired := o.ackFired ++ acks2,
               errorPuts := o.errorPuts ++ errPuts2,
               finalMsg := m'.getD o.finalMsg }

/-- `process_post_invoke`'s ack push: append the component's own ack callback
(if it defines one) to the envelope. -/
def pushOwnAck (c : Component) (m : Message) : Message :=
  match c.ackCallback with
  | some cb => m.add_acknowledgement cb
  | none => m

/-- `ComponentBase.grow_sleep_time`: double the retry sleep time, but only
while it is below 60 seconds. -/
def grow_sleep_time (t : ℕ) : ℕ :=
  if t < 60 then t * 2 else t

/-- `ComponentBase.reset_sleep_time`: the retry sleep time after a reset
(`event_message_repeat_sleep_time` is initialised and reset to 1 second). -/
def reset_sleep_time : ℕ := 1

/-- One iteration of `ComponentBase.run`'s worker loop, as it affects
`event_message_repeat_sleep_time`: a successful iteration calls
`reset_sleep_time`, an iteration whose event processing raised sleeps for the
current value and then calls `grow_sleep_time`.  `ok` is whether the
iteration completed without an exception. -/
def stepSleep (t : ℕ) (ok : Bool) : ℕ :=
  if ok then reset_sleep_time else grow_sleep_time t

/-- The retry sleep time after the worker loop has run through a list of
iteration outcomes (`true` = no exception, `false` = exception), starting
from the initial value 1. -/
def sleepAfterRun (outs : List Bool) : ℕ :=
  outs.foldl stepSleep 1

/-- The number of consecutive exceptions at the end of an outcome list. -/
def trailingFails (outs : List Bool) : ℕ :=
  outs.foldl (fun n ok => if ok then 0 else n + 1) 0
/-- C1: For every MESSAGE event processed by a component runner, the
envelope's ack callback chain fires (i.e. the pending ack callbacks run) iff
either the component explicitly discarded the message, or `invoke` returned a
non-`None` result without raising and the runner has no next component
(tail); in the non-discard, non-tail, non-`None` case the runner instead sets
`previous` to the output and enqueues the message onto the next component's
input channel. -/
theorem c1_ack_iff_discard_or_tail (c : Component) (m0 : Message) :
    (match c.invokeB (preInvokeMsg c m0).data with
     | .error _ =>
         (runnerStep c m0).ackFired = [] ∧ (runnerStep c m0).forwarded = none
     | .ok (true, _) =>
         (runnerStep c m0).ackFired = (preInvokeMsg c m0).ack_callbacks ∧
         (runnerStep c m0).forwarded = none
     | .ok (false, none) =>
         (runnerStep c m0).ackFired = [] ∧ (runnerStep c m0).forwarded = none
     | .ok (false, some r) =>
         if c.hasNext then
           (runnerStep c m0).ackFired = [] ∧
           (runnerStep c m0).forwarded =
             some (pushOwnAck c ((preInvokeMsg c m0).set_previous r))
         else
           (runnerStep c m0).ackFired =
             (pushOwnAck c ((preInvokeMsg c m0).set_previous r)).ack_callbacks ∧
           (runnerStep c m0).forwarded = none) := by
  rcases h : c.invokeB (preInvokeMsg c m0).data with e | ⟨d, r⟩
  · simp only [h, runnerStep, processMessage, Message.call_negative_acknowledgements,
      handleError, Message.call_acknowledgements]
    rcases hq : c.hasErrorQueue && c.putErrorsInErrorQueue with _ | _ <;>
      simp [hq]
  · rcases d with _ | _
    · rcases r with _ | r
      · simp [h, runnerStep, processMessage]
      · rcases hn : c.hasNext with _ | _ <;>
          simp [h, hn, runnerStep, processMessage, pushOwnAck,
            Message.call_acknowledgements]
    · simp [h, runnerStep, processMessage, Message.call_acknowledgements]
/-- C2: when `invoke` raises `e`, the runner fires the envelope's nack chain,
each callback with exactly the outcome `nack_reaction_to_exception(type(e))`
(whose default implementation returns REJECTED), and an error envelope
carrying the failing message's payload plus error metadata is put on the
error queue (when one is configured). -/
theorem c2_nack_outcome_fidelity (c : Component) (m0 : Message) (e : ExcType)
    (hinv : c.invokeB (preInvokeMsg c m0).data = Except.error e)
    (hq : c.hasErrorQueue = true) (hp : c.putErrorsInErrorQueue = true) :
    (runnerStep c m0).nackFired =
      (preInvokeMsg c m0).nack_callbacks.map (fun cb => (cb, c.nackReaction e)) ∧
    nack_reaction_to_exception_default e = NackOutcome.REJECTED ∧
    ({ excName := e, component := c.name, flow := c.flowName,
       msgInfo := some (preInvokeMsg c m0).data,
       envUserProperties := (preInvokeMsg c m0).data.user_properties } :
       ErrorEnvelope) ∈ (runnerStep c m0).errorPuts := by
  refine ⟨?_, rfl, ?_⟩ <;>
    simp [runnerStep, processMessage, hinv, hq, hp, handleError,
      Message.call_negative_acknowledgements, Message.call_acknowledgements]

/-- C9: if `invoke` returns `None` without raising and without the message
having been discarded, the runner forwards nothing, fires neither the ack nor
the nack callbacks, and puts nothing on the error queue: the message is
dropped silently. -/
theorem c9_none_result_drops_silently (c : Component) (m0 : Message)
    (hinv : c.invokeB (preInvokeMsg c m0).data = Except.ok (false, none)) :
    (runnerStep c m0).ackFired = [] ∧
    (runnerStep c m0).nackFired = [] ∧
    (runnerStep c m0).forwarded = none ∧
    (runnerStep c m0).errorPuts = [] := by
  simp [runnerStep, processMessage, hinv]

/-- Shared concrete envelope for witnesses: payload 7, one pending ack and
one pending nack callback. -/
def sampleMessage : Message :=
  { data := { payload := .vint 7, topic := "t/1",
              user_properties := [("k", .vstr "v")],
              user_data := .vnone, previous := none },
    ack_callbacks := [10], nack_callbacks := [20] }

/-- A concrete component whose `invoke` raises `ValueError`. -/
def raisingComponent : Component :=
  { name := "comp", flowName := "flow", hasNext := true,
    ackCallback := some 1, nackCallback := some 2,
    nackReaction := nack_reaction_to_exception_default,
    transform := id, invokeB := fun _ => .error "ValueError",
    hasErrorQueue := true, putErrorsInErrorQueue := true }

/-- A concrete component whose `invoke` returns `None` without discarding. -/
def droppingComponent : Component :=
  { name := "comp", flowName := "flow", hasNext := true,
    ackCallback := some 1, nackCallback := some 2,
    nackReaction := nack_reaction_to_exception_default,
    transform := id, invokeB := fun _ => .ok (false, none),
    hasErrorQueue := true, putErrorsInErrorQueue := true }

/-- Witness for C2 at a concrete raising component and envelope. -/
theorem c2_nack_outcome_fidelity_witness :
    (raisingComponent.invokeB
        (preInvokeMsg raisingComponent sampleMessage).data =
          Except.error "ValueError" ∧
     raisingComponent.hasErrorQueue = true ∧
     raisingComponent.putErrorsInErrorQueue = true) ∧
    ((runnerStep raisingComponent sampleMessage).nackFired =
      (preInvokeMsg raisingComponent sampleMessage).nack_callbacks.map
        (fun cb => (cb, raisingComponent.nackReaction "ValueError")) ∧
    nack_reaction_to_exception_default "ValueError" = NackOutcome.REJECTED ∧
    ({ excName := "ValueError", component := raisingComponent.name,
       flow := raisingComponent.flowName,
       msgInfo := some (preInvokeMsg raisingComponent sampleMessage).data,
       envUserProperties :=
         (preInvokeMsg raisingComponent sampleMessage).data.user_properties } :
       ErrorEnvelope) ∈ (runnerStep raisingComponent sampleMessage).errorPuts) :=
  ⟨⟨rfl, rfl, rfl⟩,
   c2_nack_outcome_fidelity raisingComponent sampleMessage "ValueError" rfl rfl rfl⟩

/-- Witness for C9 at a concrete dropping component and envelope. -/
theorem c9_none_result_drops_silently_witness :
    (droppingComponent.invokeB
        (preInvokeMsg droppingComponent sampleMessage).data =
          Except.ok (false, none)) ∧
    ((runnerStep droppingComponent sampleMessage).ackFired = [] ∧
     (runnerStep droppingComponent sampleMessage).nackFired = [] ∧
     (runnerStep droppingComponent sampleMessage).forwarded = none ∧
     (runnerStep droppingComponent sampleMessage).errorPuts = []) :=
  ⟨rfl, c9_none_result_drops_silently droppingComponent sampleMessage rfl⟩
/-- C6 counterexample: after 6 consecutive exceptions the retry sleep time is
64 seconds, exceeding the claimed 60-second cap (the code doubles whenever
the value is below 60, so 32 doubles to 64). -/
theorem c6_counterexample :
    sleepAfterRun (List.replicate 6 false) = 64 ∧ 60 < 64 := by
  constructor
  · rfl
  · decide

lemma grow_sleep_time_min_pow (k : ℕ) :
    grow_sleep_time (min (2 ^ k) 64) = min (2 ^ (k + 1)) 64 := by
  rcases Nat.lt_or_ge k 6 with hk | hk
  · interval_cases k <;> decide
  · have h1 : (64 : ℕ) ≤ 2 ^ k := by
      calc (64 : ℕ) = 2 ^ 6 := by norm_num
        _ ≤ 2 ^ k := Nat.pow_le_pow_right (by norm_num) hk
    have h2 : (64 : ℕ) ≤ 2 ^ (k + 1) :=
      le_trans h1 (Nat.pow_le_pow_right (by norm_num) (Nat.le_succ k))
    rw [min_eq_right h1, min_eq_right h2]
    decide

lemma sleep_foldl_min_pow (outs : List Bool) : ∀ k : ℕ,
    outs.foldl stepSleep (min (2 ^ k) 64) =
      min (2 ^ (outs.foldl (fun n ok => if ok then 0 else n + 1) k)) 64 := by
  induction outs with
  | nil => intro k; rfl
  | cons ok rest ih =>
      intro k
      cases ok
      · simpa [List.foldl, stepSleep, grow_sleep_time_min_pow k] using ih (k + 1)
      · have h1 : (min (2 ^ 0) 64 : ℕ) = 1 := by decide
        have h2 := ih 0
        rw [h1] at h2
        simpa [List.foldl, stepSleep, reset_sleep_time] using h2

/-- C6 amended: the retry sleep time starts at 1 s, doubles after each
consecutive exception while it is below 60 s — hence it never exceeds 64 s
(not 60 s) — and is reset to 1 s on successful event processing.  After any
sequence of worker-loop iterations it equals `min (2 ^ f) 64`, where `f` is
the number of trailing consecutive exceptions. -/
theorem c6_backoff_amended (outs : List Bool) :
    sleepAfterRun outs = min (2 ^ trailingFails outs) 64 ∧
    sleepAfterRun outs ≤ 64 := by
  have h := sleep_foldl_min_pow outs 0
  have h0 : (min (2 ^ 0) 64 : ℕ) = 1 := by decide
  rw [h0] at h
  simp only [sleepAfterRun, trailingFails]
  refine ⟨h, ?_⟩
  rw [h]
  exact min_le_right _ _
/-- `RequestResponseFlowController.send_message`: stamp the envelope's
`previous` with the request description (payload, user properties, topic,
stream flag, completion expression), record the enqueue time, and put the
event on the internal flow's input queue.  Returns the stamped message and
the recorded `enqueue_time`. -/
def rr_send_message (m : Message) (stream : Bool)
    (streaming_complete_expression : Option String) (now : ℚ) : Message × ℚ :=
  (m.set_previous (.vdict
      [("payload", m.data.payload),
       ("user_properties", .vdict m.data.user_properties),
       ("topic", .vstr m.data.topic),
       ("stream", .vbool stream),
       ("streaming_complete_expression",
        match streaming_complete_expression with
        | some s => .vstr s
        | none => .vnone)]),
   now)

/-- `do_broker_request_response`, streaming branch, as a function of the
sequence of events on the response queue: read events in order; a MESSAGE
event is yielded together with the value of the completion expression
evaluated against it (`message.get_data(streaming_complete_expression)`,
abstracted as `evalExpr`); if that value is truthy the generator returns,
reading nothing further; non-MESSAGE events are read but not yielded.
Returns the yielded `(message, is_last)` pairs and the part of the queue that
is never read. -/
def do_broker_request_response_stream (evalExpr : Message → Val) :
    List Event → List (Message × Val) × List Event
  | [] => ([], [])
  | Event.message m :: rest =>
      let lastv := evalExpr m
      if lastv.truthy then ([(m, lastv)], rest)
      else
        let (ys, rem) := do_broker_request_response_stream evalExpr rest
        ((m, lastv) :: ys, rem)
  | Event.timer _ :: rest => do_broker_request_response_stream evalExpr rest
  | Event.cacheExpiry _ :: rest => do_broker_request_response_stream evalExpr rest

/-- The MESSAGE payloads of a list of events, in order. -/
def messagesOf (evs : List Event) : List Message :=
  evs.filterMap (fun ev => match ev with
    | Event.message m => some m
    | _ => none)

/-- Result of the non-streaming branch of `do_broker_request_response`:
either it yields `(message, True)` once, or it raises `TimeoutError` at the
given time, or the generator ends without yielding (which the code does when
the read event is not a MESSAGE, or when the elapsed time does not strictly
exceed the budget). -/
inductive RRResult where
  | yielded : Message → Bool → RRResult
  | timeout : ℚ → RRResult
  | ended : RRResult

/-- `do_broker_request_response`, non-streaming branch, in an idealised
real-time model with times in seconds as rationals.  `expiryS` is
`request_expiry_s`; `enqueueT` is the `enqueue_time` recorded by
`send_message`; `callT ≥ enqueueT` is the `time.time()` reading before the
read, so the read's timeout is `remaining = expiryS - (callT - enqueueT)`;
`resp` is the first event put on the response queue together with its arrival
time (`none` when no response ever arrives); `eps > 0` is the amount by which
the blocking `queue.get` overshoots its timeout before raising `Empty`.
If an event is available within the timeout it is returned and, when it is a
MESSAGE, yielded with `is_last = True`; otherwise `queue.Empty` is raised at
`callT + remaining + eps` and `TimeoutError` is raised iff the elapsed time
then strictly exceeds the budget.  (A negative `remaining` would make the
Python `queue.get` raise `ValueError`; the claims below assume
`callT ≤ enqueueT + expiryS`, and the model clamps the timeout at 0.) -/
def do_broker_request_response_nonstream (expiryS enqueueT callT : ℚ)
    (resp : Option (ℚ × Event)) (eps : ℚ) : RRResult :=
  let remaining := expiryS - (callT - enqueueT)
  let emptyAt := callT + max remaining 0 + eps
  match resp with
  | some (ta, ev) =>
      if ta ≤ callT + max remaining 0 then
        match ev with
        | Event.message m => RRResult.yielded m true
        | _ => RRResult.ended
      else
        if emptyAt - enqueueT > expiryS then RRResult.timeout emptyAt
        else RRResult.ended
  | none =>
      if emptyAt - enqueueT > expiryS then RRResult.timeout emptyAt
      else RRResult.ended

/-- C3: in streaming mode, the iterator yields `(message, is_last)` for each
MESSAGE response in order, `is_last` being the completion expression's value
on that response; after the first response on which the expression is truthy
it yields that message as last and terminates, reading nothing further from
the response queue. -/
theorem c3_streaming_completion (evalExpr : Message → Val)
    (pre : List Event) (m : Message) (post : List Event)
    (hpre : ∀ md : Message, Event.message md ∈ pre → (evalExpr md).truthy = false)
    (hm : (evalExpr m).truthy = true) :
    do_broker_request_response_stream evalExpr (pre ++ Event.message m :: post) =
      ((messagesOf pre).map (fun md => (md, evalExpr md)) ++ [(m, evalExpr m)],
       post) := by
  induction pre with
  | nil =>
      simp [do_broker_request_response_stream, messagesOf, hm]
  | cons ev rest ih =>
      have hrest : ∀ md : Message, Event.message md ∈ rest →
          (evalExpr md).truthy = false := by
        intro md hmem
        exact hpre md (List.mem_cons_of_mem ev hmem)
      cases ev with
      | message md =>
          have hfalse : (evalExpr md).truthy = false :=
            hpre md (List.mem_cons_self _ _)
          simp [do_broker_request_response_stream, messagesOf, hfalse,
            ih hrest]
      | timer v =>
          simpa [do_broker_request_response_stream, messagesOf]
            using ih hrest
      | cacheExpiry v =>
          simpa [do_broker_request_response_stream, messagesOf]
            using ih hrest
/-- A concrete completion-expression evaluator for witnesses: the expression
selects the response's payload. -/
def payloadExpr : Message → Val := fun m => m.data.payload

/-- A concrete response message whose payload is the boolean `b`. -/
def wmsg (b : Bool) : Message :=
  { data := { payload := .vbool b, topic := "r", user_properties := [],
              user_data := .vnone, previous := none },
    ack_callbacks := [], nack_callbacks := [] }

/-- Witness for C3: two non-final responses followed by a final one and an
unread trailing event. -/
theorem c3_streaming_completion_witness :
    ((∀ md : Message,
        Event.message md ∈
          [Event.message (wmsg false), Event.message (wmsg false)] →
        (payloadExpr md).truthy = false) ∧
     (payloadExpr (wmsg true)).truthy = true) ∧
    do_broker_request_response_stream payloadExpr
        ([Event.message (wmsg false), Event.message (wmsg false)] ++
          Event.message (wmsg true) :: [Event.timer Val.vnone]) =
      ((messagesOf [Event.message (wmsg false), Event.message (wmsg false)]).map
          (fun md => (md, payloadExpr md)) ++
        [(wmsg true, payloadExpr (wmsg true))],
       [Event.timer Val.vnone]) := by
  have hpre : ∀ md : Message,
      Event.message md ∈
        [Event.message (wmsg false), Event.message (wmsg false)] →
      (payloadExpr md).truthy = false := by
    intro md h
    simp only [List.mem_cons, List.not_mem_nil, or_false] at h
    rcases h with h | h <;> (injection h with h2; subst h2; rfl)
  exact ⟨⟨hpre, rfl⟩,
    c3_streaming_completion payloadExpr
      [Event.message (wmsg false), Event.message (wmsg false)]
      (wmsg true) [Event.timer Val.vnone] hpre rfl⟩

/-- C4: in non-streaming mode the controller reads one event from the
response queue within the remaining budget and yields `(message, True)`; and
when no response ever arrives it raises `TimeoutError` no later than the
expiry budget plus one tick (the `queue.get` overshoot) after the enqueue
instant. -/
theorem c4_nonstream_yield_or_timeout
    (expiryS enqueueT callT eps tick : ℚ) (resp : Option (ℚ × Event))
    (h1 : enqueueT ≤ callT) (h2 : callT ≤ enqueueT + expiryS)
    (heps : 0 < eps) (htick : eps ≤ tick) :
    (∀ (ta : ℚ) (m : Message), resp = some (ta, Event.message m) →
        ta ≤ enqueueT + expiryS →
        do_broker_request_response_nonstream expiryS enqueueT callT resp eps =
          RRResult.yielded m true) ∧
    (resp = none →
        do_broker_request_response_nonstream expiryS enqueueT callT resp eps =
          RRResult.timeout (enqueueT + expiryS + eps) ∧
        enqueueT + expiryS + eps ≤ enqueueT + expiryS + tick) := by
  have hrem : max (expiryS - (callT - enqueueT)) 0 =
      expiryS - (callT - enqueueT) :=
    max_eq_left (by linarith)
  constructor
  · rintro ta m rfl hta
    simp only [do_broker_request_response_nonstream, hrem]
    rw [if_pos (by linarith)]
  · rintro rfl
    constructor
    · simp only [do_broker_request_response_nonstream, hrem]
      rw [if_pos (by linarith)]
      congr 1
      ring
    · linarith

/-- Witness for C4: a 30-second budget, a request enqueued at time 0, the
read performed at time 1, no response, a half-second overshoot, a one-second
tick. -/
theorem c4_nonstream_yield_or_timeout_witness :
    ((0 : ℚ) ≤ 1 ∧ (1 : ℚ) ≤ 0 + 30 ∧ (0 : ℚ) < 1/2 ∧ (1/2 : ℚ) ≤ 1) ∧
    (do_broker_request_response_nonstream 30 0 1 none (1/2) =
        RRResult.timeout (0 + 30 + 1/2) ∧
      (0 : ℚ) + 30 + 1/2 ≤ 0 + 30 + 1) := by
  refine ⟨by norm_num, ?_⟩
  exact (c4_nonstream_yield_or_timeout 30 0 1 (1/2) 1 none (by norm_num)
    (by norm_num) (by norm_num) (by norm_num)).2 rfl
/-- The token alphabet of the regexes produced by
`DevBroker._subscription_to_regex`: literal characters, the one-level
wildcard fragment `[^/]+`, the multi-level fragment `.*`, and a lone `.`
(regex any-character-except-newline). -/
inductive RTok where
  | lit : Char → RTok
  | oneLevel : RTok
  | anyTail : RTok
  | anyChar : RTok

/-- Parse a regex string produced by `_subscription_to_regex` into tokens.
This interprets exactly the regex fragment that function generates from
topic strings: `[^/]+`, `.*`, `.`, and literal characters.  (Other regex
metacharacters in a subscription are outside the dev broker's topic
syntax and are not modelled.) -/
def parseRegexTokens : List Char → List RTok
  | '[' :: '^' :: '/' :: ']' :: '+' :: rest => RTok.oneLevel :: parseRegexTokens rest
  | '.' :: '*' :: rest => RTok.anyTail :: parseRegexTokens rest
  | '.' :: rest => RTok.anyChar :: parseRegexTokens rest
  | c :: rest => RTok.lit c :: parseRegexTokens rest
  | [] => []

/-- Backtracking matcher for the token regexes, with Python `re` semantics
for the generated fragment: `[^/]+` consumes one or more non-`/` characters,
`.*` consumes any (possibly empty) run of non-newline characters, `.` one
non-newline character.  The whole string must be consumed (the source
anchors with `^…$`ies; `$` also accepting a trailing newline is not modelled
— topics contain no newlines). -/
def rmatch : List RTok → List Char → Bool
  | [], cs => cs.isEmpty
  | RTok.lit _ :: _, [] => false
  | RTok.lit c :: ps, x :: xs => c == x && rmatch ps xs
  | RTok.anyChar :: _, [] => false
  | RTok.anyChar :: ps, x :: xs => x != '\n' && rmatch ps xs
  | RTok.oneLevel :: _, [] => false
  | RTok.oneLevel :: ps, x :: xs =>
      x != '/' && (rmatch ps xs || rmatch (RTok.oneLevel :: ps) xs)
  | RTok.anyTail :: ps, [] => rmatch ps []
  | RTok.anyTail :: ps, x :: xs =>
      rmatch ps (x :: xs) || (x != '\n' && rmatch (RTok.anyTail :: ps) xs)
termination_by ps cs => (cs.length, ps.length)

/-- Python `str.replace` for a single-character pattern: substitute every
occurrence of the character `c` by `sub`, left to right. -/
def replaceCharList (c : Char) (sub : List Char) : List Char → List Char
  | [] => []
  | x :: xs => (if x = c then sub else [x]) ++ replaceCharList c sub xs

/-- `DevBroker._subscription_to_regex`:
`subscription.replace("*", "[^/]+").replace(">", ".*")` — both patterns are
single characters, so each replace substitutes per character, left to
right, the second acting on the result of the first. -/
def subscription_to_regex (subscription : String) : String :=
  ⟨replaceCharList '>' ".*".data (replaceCharList '*' "[^/]+".data subscription.data)⟩

/-- `DevBroker._topic_matches`: `re.match(f"^{subscription}$", topic)`,
where `subscription` is an already-compiled regex string. -/
def topic_matches (subscription topic : String) : Bool :=
  rmatch (parseRegexTokens subscription.data) topic.data

example : topic_matches (subscription_to_regex "a/*/c") "a/b/c" = true := by
  simp [topic_matches, subscription_to_regex, parseRegexTokens, rmatch]
/-- Python dict assignment `d[k] = v` on an insertion-ordered association
list: overwrite in place when the key exists, otherwise append. -/
def aset (k : String) (v : α) : List (String × α) → List (String × α)
  | [] => [(k, v)]
  | (k', v') :: rest => if k' = k then (k, v) :: rest else (k', v') :: aset k v rest

/-- The message dict built by `DevBroker.send_message`:
`{"payload": …, "topic": …, "user_properties": …}`. -/
structure DevMessage where
  payload : Val
  topic : String
  user_properties : List (String × Val)

/-- The dev broker's state: connection flag, the in-memory queues (queue id →
FIFO contents) and the subscription table (compiled regex → subscribing
queue ids), both insertion-ordered as Python dicts are. -/
structure DevState where
  connected : Bool
  queues : List (String × List DevMessage)
  subscriptions : List (String × List String)

/-- `DevBroker._get_matching_queue_ids`: collect the queue ids of every
subscription whose regex matches the topic, then deduplicate
(`list(set(...))`; the set's iteration order is arbitrary in Python, the
model uses `List.dedup`, which preserves each element once — the claims
below speak only of counts and membership). -/
def get_matching_queue_ids (subscriptions : List (String × List String))
    (topic : String) : List String :=
  (((subscriptions.filter (fun p => topic_matches p.1 topic)).flatMap
      (fun p => p.2))).dedup

/-- `DevBroker.receive_message`: raise `RuntimeError` when not connected;
otherwise take the head of the queue (`None` on timeout when it is empty; a
missing queue id raises `KeyError`).  Returns the post-call state and the
result. -/
def dev_receive_message (st : DevState) (_timeout_ms : ℚ) (queue_id : String) :
    DevState × Except String (Option DevMessage) :=
  if !st.connected then (st, .error "DevBroker is not connected")
  else
    match List.lookup queue_id st.queues with
    | none => (st, .error "KeyError")
    | some [] => (st, .ok none)
    | some (m :: rest) =>
        ({ st with queues := aset queue_id rest st.queues }, .ok (some m))

/-- The delivery loop of `DevBroker.send_message`: put a (deep-copied)
message at the tail of each listed queue in turn; a queue id missing from
the queue table raises `KeyError`, leaving the earlier deliveries done. -/
def deliverAll (m : DevMessage) :
    List String → List (String × List DevMessage) →
      List (String × List DevMessage) × Except String Unit
  | [], qs => (qs, .ok ())
  | qid :: rest, qs =>
      match List.lookup qid qs with
      | none => (qs, .error "KeyError")
      | some buf => deliverAll m rest (aset qid (buf ++ [m]) qs)

/-- `DevBroker.send_message`: raise `RuntimeError` when not connected;
otherwise build the message dict, compute the matching queue ids, and put
one copy on each.  (The optional `user_context` publish callback is an
out-call to the caller and is not modelled.) -/
def dev_send_message (st : DevState) (destination_name : String)
    (payload : Val) (user_properties : List (String × Val)) :
    DevState × Except String Unit :=
  if !st.connected then (st, .error "DevBroker is not connected")
  else
    let message : DevMessage :=
      { payload := payload, topic := destination_name,
        user_properties := user_properties }
    let ids := get_matching_queue_ids st.subscriptions destination_name
    let (qs', res) := deliverAll message ids st.queues
    ({ st with queues := qs' }, res)

/-- `DevBroker.subscribe`: raise `RuntimeError` when not connected; otherwise
compile the subscription to a regex, create the queue if absent, and append
the queue id to the regex's subscriber list. -/
def dev_subscribe (st : DevState) (subscription : String) (queue_id : String) :
    DevState × Except String Unit :=
  if !st.connected then (st, .error "DevBroker is not connected")
  else
    let rsub := subscription_to_regex subscription
    let queues' := match List.lookup queue_id st.queues with
                   | some _ => st.queues
                   | none => st.queues ++ [(queue_id, [])]
    let subs' := match List.lookup rsub st.subscriptions with
                 | some ids => aset rsub (ids ++ [queue_id]) st.subscriptions
                 | none => st.subscriptions ++ [(rsub, [queue_id])]
    ({ st with queues := queues', subscriptions := subs' }, .ok ())

/-- `DevBroker.ack_message`: a no-op (`pass`); it never fails. -/
def dev_ack_message (st : DevState) (_message : DevMessage) :
    DevState × Except String Unit :=
  (st, .ok ())
lemma lookup_aset_self (k : String) (v : α) (l : List (String × α)) :
    List.lookup k (aset k v l) = some v := by
  induction l with
  | nil => simp [aset, List.lookup]
  | cons p rest ih =>
      by_cases h : p.1 = k
      · simp [aset, h, List.lookup]
      · have hbeq : (k == p.1) = false := beq_eq_false_iff_ne.mpr (Ne.symm h)
        simp [aset, h, List.lookup, hbeq, ih]

lemma lookup_aset_ne (k' k : String) (v : α) (l : List (String × α))
    (h : k' ≠ k) : List.lookup k' (aset k v l) = List.lookup k' l := by
  have hbeq : (k' == k) = false := beq_eq_false_iff_ne.mpr h
  induction l with
  | nil => simp [aset, List.lookup, hbeq]
  | cons p rest ih =>
      by_cases hp : p.1 = k
      · simp [aset, hp, List.lookup, hbeq]
      · cases hb : k' == p.1 <;> simp [aset, hp, List.lookup, hb, ih]

lemma deliverAll_lookup (m : DevMessage) (ids : List String) :
    ∀ (qs : List (String × List DevMessage)), ids.Nodup →
    (∀ i ∈ ids, (List.lookup i qs).isSome) →
    ∀ (q : String) (buf : List DevMessage), List.lookup q qs = some buf →
      List.lookup q (deliverAll m ids qs).1 =
        some (buf ++ if q ∈ ids then [m] else []) := by
  induction ids with
  | nil =>
      intro qs _ _ q buf hq
      simp [deliverAll, hq]
  | cons qid rest ih =>
      intro qs hnd hall q buf hq
      have h0 : (List.lookup qid qs).isSome :=
        hall qid (List.mem_cons_self _ _)
      obtain ⟨buf0, hbuf0⟩ := Option.isSome_iff_exists.mp h0
      simp only [deliverAll, hbuf0]
      have hnd' := List.nodup_cons.mp hnd
      have hall' : ∀ i ∈ rest,
          (List.lookup i (aset qid (buf0 ++ [m]) qs)).isSome := by
        intro i hi
        by_cases hiq : i = qid
        · subst hiq
          simp [lookup_aset_self]
        · rw [lookup_aset_ne i qid _ _ hiq]
          exact hall i (List.mem_cons_of_mem _ hi)
      by_cases hqq : q = qid
      · subst hqq
        have hbb : buf0 = buf := by
          rw [hq] at hbuf0
          exact (Option.some.injEq _ _ ▸ hbuf0).symm ▸ rfl
        have hq1 : List.lookup q (aset q (buf0 ++ [m]) qs) =
            some (buf ++ [m]) := by
          rw [lookup_aset_self]
          rw [hbb]
        have hres := ih (aset q (buf0 ++ [m]) qs) hnd'.2 hall' q (buf ++ [m]) hq1
        rw [hres]
        have hqrest : q ∉ rest := hnd'.1
        simp [hqrest]
      · have hq1 : List.lookup q (aset qid (buf0 ++ [m]) qs) = some buf := by
          rw [lookup_aset_ne q qid _ _ hqq]
          exact hq
        have hres := ih (aset qid (buf0 ++ [m]) qs) hnd'.2 hall' q buf hq1
        rw [hres]
        simp [List.mem_cons, hqq]
/-- C5: a published topic is delivered to exactly one copy per matching
subscribing queue — the matching-id list counts each subscribing queue id at
most once (duplicates across subscriptions deduplicated), and `send_message`
appends exactly one copy of the message to each matching queue and none to
the others; matching compiles `*` to `[^/]+` and `>` to `.*` with the regex
anchored at both ends, so `a/*/c` matches `a/b/c` but not `a/b/c/d`, and
`a/>` matches `a/anything/more` but not `a` alone. -/
theorem c5_dev_broker_subscription_semantics :
    (∀ (subs : List (String × List String)) (topic q : String),
        (get_matching_queue_ids subs topic).count q =
          if ∃ p ∈ subs, topic_matches p.1 topic = true ∧ q ∈ p.2 then 1
          else 0) ∧
    (∀ (st : DevState) (topic : String) (payload : Val)
        (props : List (String × Val)) (q : String) (buf : List DevMessage),
        st.connected = true →
        (∀ i ∈ get_matching_queue_ids st.subscriptions topic,
            (List.lookup i st.queues).isSome) →
        List.lookup q st.queues = some buf →
        List.lookup q (dev_send_message st topic payload props).1.queues =
          some (buf ++
            if q ∈ get_matching_queue_ids st.subscriptions topic then
              [{ payload := payload, topic := topic,
                 user_properties := props }]
            else [])) ∧
    topic_matches (subscription_to_regex "a/*/c") "a/b/c" = true ∧
    topic_matches (subscription_to_regex "a/*/c") "a/b/c/d" = false ∧
    topic_matches (subscription_to_regex "a/>") "a/anything/more" = true ∧
    topic_matches (subscription_to_regex "a/>") "a" = false := by
  refine ⟨?_, ?_, ?_, ?_, ?_, ?_⟩
  · intro subs topic q
    by_cases hmem : q ∈ get_matching_queue_ids subs topic
    · have hcond : ∃ p ∈ subs, topic_matches p.1 topic = true ∧ q ∈ p.2 := by
        have := hmem
        simp only [get_matching_queue_ids, List.mem_dedup, List.mem_flatMap,
          List.mem_filter] at this
        obtain ⟨p, ⟨hp, hmatch⟩, hq⟩ := this
        exact ⟨p, hp, hmatch, hq⟩
      rw [if_pos hcond]
      exact List.count_eq_one_of_mem
        (List.nodup_dedup _) hmem
    · have hcond : ¬∃ p ∈ subs, topic_matches p.1 topic = true ∧ q ∈ p.2 := by
        intro ⟨p, hp, hmatch, hq⟩
        exact hmem (by
          simp only [get_matching_queue_ids, List.mem_dedup, List.mem_flatMap,
            List.mem_filter]
          exact ⟨p, ⟨hp, hmatch⟩, hq⟩)
      rw [if_neg hcond]
      exact List.count_eq_zero_of_not_mem hmem
  · intro st topic payload props q buf hconn hall hq
    simp only [dev_send_message, hconn, Bool.not_true, Bool.false_eq_true,
      if_false]
    exact deliverAll_lookup _ _ st.queues
      (List.nodup_dedup _) hall q buf hq
  · simp [topic_matches, subscription_to_regex, replaceCharList,
      parseRegexTokens, rmatch]
  · simp [topic_matches, subscription_to_regex, replaceCharList,
      parseRegexTokens, rmatch]
  · simp [topic_matches, subscription_to_regex, replaceCharList,
      parseRegexTokens, rmatch]
  · simp [topic_matches, subscription_to_regex, replaceCharList,
      parseRegexTokens, rmatch]

/-- C10: every dev-broker operation among `receive_message`, `send_message`
and `subscribe` raises `RuntimeError` when the broker is not connected,
leaving the queues and the subscription table unchanged; `ack_message` never
fails, in any state. -/
theorem c10_disconnected_ops (st : DevState) (tmo : ℚ)
    (qid sub topic : String) (payload : Val) (props : List (String × Val))
    (h : st.connected = false) :
    dev_receive_message st tmo qid =
      (st, Except.error "DevBroker is not connected") ∧
    dev_send_message st topic payload props =
      (st, Except.error "DevBroker is not connected") ∧
    dev_subscribe st sub qid =
      (st, Except.error "DevBroker is not connected") ∧
    (∀ (st2 : DevState) (m2 : DevMessage),
        dev_ack_message st2 m2 = (st2, Except.ok ())) := by
  refine ⟨?_, ?_, ?_, fun st2 m2 => rfl⟩ <;>
    simp [dev_receive_message, dev_send_message, dev_subscribe, h]
/-- A connected dev-broker state with one empty queue subscribed via the
wildcard subscription `a/*`. -/
def wDevState : DevState :=
  { connected := true,
    queues := [("q1", [])],
    subscriptions := [(subscription_to_regex "a/*", ["q1"])] }

/-- Witness for C5: publishing to `a/x` delivers one copy to queue `q1`. -/
theorem c5_dev_broker_subscription_semantics_witness :
    (wDevState.connected = true ∧
     (∀ i ∈ get_matching_queue_ids wDevState.subscriptions "a/x",
        (List.lookup i wDevState.queues).isSome) ∧
     List.lookup "q1" wDevState.queues = some []) ∧
    List.lookup "q1"
        (dev_send_message wDevState "a/x" (Val.vint 1) []).1.queues =
      some ([] ++
        (if "q1" ∈ get_matching_queue_ids wDevState.subscriptions "a/x" then
          [{ payload := Val.vint 1, topic := "a/x", user_properties := [] }]
        else [])) := by
  have hids : get_matching_queue_ids wDevState.subscriptions "a/x" = ["q1"] := by
    simp [get_matching_queue_ids, wDevState, topic_matches,
      subscription_to_regex, replaceCharList, parseRegexTokens, rmatch]
  have hall : ∀ i ∈ get_matching_queue_ids wDevState.subscriptions "a/x",
      (List.lookup i wDevState.queues).isSome := by
    rw [hids]
    intro i hi
    simp only [List.mem_singleton] at hi
    subst hi
    rfl
  exact ⟨⟨rfl, hall, rfl⟩,
    c5_dev_broker_subscription_semantics.2.1 wDevState "a/x" (Val.vint 1) []
      "q1" [] rfl hall rfl⟩

/-- A disconnected dev-broker state. -/
def wDisconnected : DevState :=
  { connected := false, queues := [("q1", [])], subscriptions := [] }

/-- Witness for C10 at a concrete disconnected state. -/
theorem c10_disconnected_ops_witness :
    wDisconnected.connected = false ∧
    (dev_receive_message wDisconnected 1000 "q1" =
        (wDisconnected, Except.error "DevBroker is not connected") ∧
     dev_send_message wDisconnected "t" Val.vnone [] =
        (wDisconnected, Except.error "DevBroker is not connected") ∧
     dev_subscribe wDisconnected "s" "q1" =
        (wDisconnected, Except.error "DevBroker is not connected") ∧
     (∀ (st2 : DevState) (m2 : DevMessage),
        dev_ack_message st2 m2 = (st2, Except.ok ()))) :=
  ⟨rfl, c10_disconnected_ops wDisconnected 1000 "q1" "s" "t" Val.vnone [] rfl⟩
/-- `TraceLevel` (command_control/tracing.py): DEBUG, INFO, WARN, ERROR. -/
inductive TraceLevel where
  | DEBUG : TraceLevel
  | INFO : TraceLevel
  | WARN : TraceLevel
  | ERROR : TraceLevel
deriving DecidableEq, Repr

/-- `TraceLevel.value`: the level's name string. -/
def levelName : TraceLevel → String
  | .DEBUG => "DEBUG"
  | .INFO => "INFO"
  | .WARN => "WARN"
  | .ERROR => "ERROR"

/-- `TracingSystem._get_level_value`: the numeric value of a trace level
(the source's dict lookup with default 0; every level is in the dict). -/
def get_level_value : TraceLevel → ℕ
  | .DEBUG => 0
  | .INFO => 1
  | .WARN => 2
  | .ERROR => 3

/-- The `TracingSystem` state read by `emit_trace`: the enabled flag, the
default level, the per-entity overrides, and whether a broker adapter is
set (`_publish_trace` publishes nothing without one). -/
structure TracingState where
  enabled : Bool
  default_level : TraceLevel
  entity_levels : List (String × TraceLevel)
  has_broker_adapter : Bool

/-- The fields of the published trace event that the level filter concerns.
(`request_id` defaults to a fresh UUID and `timestamp` to the wall clock —
external nondeterminism not modelled; the optional data/error/duration
fields are pass-throughs.) -/
structure TraceEvent where
  entity_id : String
  entity_type : String
  trace_level : String
  operation : String
  stage : String

/-- The entity's effective level:
`self.entity_levels.get(entity_id, self.default_level)`. -/
def effective_level (st : TracingState) (entity_id : String) : TraceLevel :=
  (List.lookup entity_id st.entity_levels).getD st.default_level

/-- `TracingSystem.emit_trace` (for a valid `TraceLevel`; an invalid level
string falls back to INFO before this logic): return without publishing when
disabled; skip when the trace level's value is below the entity's effective
level's value; otherwise build the trace event and publish it through the
broker adapter (`none` also when no adapter is set). -/
def emit_trace (st : TracingState) (entity_id entity_type : String)
    (trace_level : TraceLevel) (operation stage : String) : Option TraceEvent :=
  if !st.enabled then none
  else
    let entity_level := effective_level st entity_id
    if get_level_value trace_level < get_level_value entity_level then none
    else if !st.has_broker_adapter then none
    else
      some { entity_id := entity_id, entity_type := entity_type,
             trace_level := levelName trace_level,
             operation := operation, stage := stage }

/-- C8: while tracing is enabled (and a broker adapter is set, so publishing
is possible at all), a trace at level `L` from entity `E` is published iff
`value(L) ≥ value(effective_level(E))`, with DEBUG=0, INFO=1, WARN=2,
ERROR=3, the effective level being the per-entity override when set and the
default level otherwise. -/
theorem c8_trace_level_monotonicity (st : TracingState) (eid etype : String)
    (lvl : TraceLevel) (op stage : String)
    (hen : st.enabled = true) (had : st.has_broker_adapter = true) :
    ((emit_trace st eid etype lvl op stage).isSome ↔
      get_level_value (effective_level st eid) ≤ get_level_value lvl) ∧
    get_level_value TraceLevel.DEBUG = 0 ∧
    get_level_value TraceLevel.INFO = 1 ∧
    get_level_value TraceLevel.WARN = 2 ∧
    get_level_value TraceLevel.ERROR = 3 := by
  refine ⟨?_, rfl, rfl, rfl, rfl⟩
  by_cases h : get_level_value lvl < get_level_value (effective_level st eid)
  · simp only [emit_trace, hen, had, h]
    simp
    omega
  · simp only [emit_trace, hen, had, h]
    simp
    omega

/-- A concrete tracing state: enabled, adapter set, default level INFO, one
per-entity override setting entity `e1` to WARN. -/
def wTracing : TracingState :=
  { enabled := true, default_level := .INFO,
    entity_levels := [("e1", .WARN)], has_broker_adapter := true }

/-- Witness for C8 at a concrete state and an ERROR-level trace. -/
theorem c8_trace_level_monotonicity_witness :
    (wTracing.enabled = true ∧ wTracing.has_broker_adapter = true) ∧
    (((emit_trace wTracing "e1" "component" TraceLevel.ERROR "op" "start").isSome ↔
        get_level_value (effective_level wTracing "e1") ≤
          get_level_value TraceLevel.ERROR) ∧
     get_level_value TraceLevel.DEBUG = 0 ∧
     get_level_value TraceLevel.INFO = 1 ∧
     get_level_value TraceLevel.WARN = 2 ∧
     get_level_value TraceLevel.ERROR = 3) :=
  ⟨⟨rfl, rfl⟩,
   c8_trace_level_monotonicity wTracing "e1" "component" TraceLevel.ERROR
     "op" "start" rfl rfl⟩
/-- Python `dict.pop(k)`'s effect on an insertion-ordered association list:
remove the entry with key `k` (keys are unique in a dict). -/
def apop (k : String) : List (String × α) → List (String × α)
  | [] => []
  | (k', v') :: rest => if k' = k then rest else (k', v') :: apop k rest

lemma dropWhile_length_le {α : Type} (p : α → Bool) (l : List α) :
    (l.dropWhile p).length ≤ l.length := by
  induction l with
  | nil => simp [List.dropWhile]
  | cons x xs ih =>
      cases hp : p x
      · simp [List.dropWhile, hp]
      · simp only [List.dropWhile, hp, List.length_cons]
        exact le_trans ih (Nat.le_succ _)

/-- The substitution step of `EntityRegistry._path_template_to_regex`:
`re.sub` of `\x7b([^\x7d]+)\x7d` by `(?P<\\1>[^/]+)` — replace each
leftmost `{name}` with nonempty `}`-free `name` by the named capture group;
a `{` with no matching `}` (or with an empty name) stays literal.  The
characters of `name` are `takeWhile (. != closing brace)` and scanning
resumes after the closing brace, the tail of the `dropWhile`. -/
lemma tail_dropWhile_lt (l : List Char) :
    (List.dropWhile (fun x => !decide (x = '}')) l).length - 1 <
      l.length + 1 := by
  have h1 := dropWhile_length_le (fun x => !decide (x = '}')) l
  omega

def pathTemplateSubst : List Char → List Char
  | [] => []
  | c :: rest =>
      if c = '{' ∧ ¬(rest.takeWhile (fun x => x ≠ '}')).isEmpty ∧
          ¬(rest.dropWhile (fun x => x ≠ '}')).isEmpty then
        "(?P<".data ++ rest.takeWhile (fun x => x ≠ '}') ++
          ">[^/]+)".data ++
          pathTemplateSubst ((rest.dropWhile (fun x => x ≠ '}')).tail)
      else c :: pathTemplateSubst rest
termination_by cs => cs.length
decreasing_by
  all_goals simp_wf
  all_goals try omega
  all_goals exact tail_dropWhile_lt _

/-- `EntityRegistry._path_template_to_regex`: anchor the substituted
template with `^…$` (the model keeps the pattern string, which is also the
dict key `pattern_str = path_pattern.pattern`; `re.compile` is
deterministic in it). -/
def path_template_to_regex (path_template : String) : String :=
  ⟨'^' :: pathTemplateSubst path_template.data ++ ['$']⟩

/-- An endpoint as passed to `_register_endpoint`: `endpoint.get('path')`
and `endpoint.get('methods', {})`, a verb → handler map (handlers embedded
as opaque identifiers). -/
structure Endpoint where
  path : Option String
  methods : List (String × Nat)
deriving DecidableEq, Repr

/-- The entity descriptor passed to `register_entity`: the fields the
registry logic reads (`entity_id`, `endpoints`); the remaining descriptor
fields (type, name, version, …) are carried opaquely in `info` and stored
verbatim. -/
structure EntityData where
  entity_id : Option String
  endpoints : List Endpoint
  info : Val

/-- `EntityRegistry`'s state: `entities` (id → descriptor), `endpoints`
(`pattern_str` → `(entity_id, path_template, methods)`), and the keys of the
compiled-pattern dict `endpoint_patterns` (its values are determined by the
keys via `re.compile`). -/
structure RegistryState where
  entities : List (String × EntityData)
  endpoints : List (String × (String × String × List (String × Nat)))
  endpoint_patterns : List String

/-- `EntityRegistry._register_endpoint`: skip endpoints without a path or
without methods; otherwise compute the pattern and store the endpoint info
and the compiled pattern under `pattern_str` (dict assignment — a colliding
key is overwritten).  (`re.compile` raising on a malformed group name is the
only failure path and is not modelled; see the doc of `register_entity`.) -/
def register_endpoint (entity_id : String) (ep : Endpoint)
    (st : RegistryState) : RegistryState :=
  match ep.path with
  | none => st
  | some path =>
      if path = "" then st
      else if ep.methods.isEmpty then st
      else
        let pattern_str := path_template_to_regex path
        { st with
          endpoints :=
            aset pattern_str (entity_id, path, ep.methods) st.endpoints,
          endpoint_patterns :=
            if pattern_str ∈ st.endpoint_patterns then st.endpoint_patterns
            else st.endpoint_patterns ++ [pattern_str] }

/-- `EntityRegistry.register_entity`: reject a missing or empty `entity_id`;
register every endpoint; store the descriptor only after all endpoints
registered.  (The per-endpoint `except` branch — cleanup and `False` — is
reachable only through `re.compile` raising, which is not modelled, so the
loop is total here.) -/
def register_entity (entity_data : EntityData) (st : RegistryState) :
    RegistryState × Bool :=
  match entity_data.entity_id with
  | none => (st, false)
  | some eid =>
      if eid = "" then (st, false)
      else
        let st1 := entity_data.endpoints.foldl
          (fun s ep => register_endpoint eid ep s) st
        ({ st1 with entities := aset eid entity_data st1.entities }, true)

/-- `EntityRegistry.deregister_entity`: fail when the entity is unknown;
otherwise pop the descriptor, collect the patterns of the endpoints owned by
the entity, and pop each from both endpoint dicts. -/
def deregister_entity (entity_id : String) (st : RegistryState) :
    RegistryState × Bool :=
  if (List.lookup entity_id st.entities).isNone then (st, false)
  else
    let patterns_to_remove :=
      (st.endpoints.filter (fun p => p.2.1 = entity_id)).map (fun p => p.1)
    ({ entities := apop entity_id st.entities,
       endpoints :=
         patterns_to_remove.foldl (fun eps k => apop k eps) st.endpoints,
       endpoint_patterns :=
         patterns_to_remove.foldl (fun ps k => ps.erase k) st.endpoint_patterns },
     true)
/-- An entity descriptor `A` exposing endpoint path `/p`. -/
def entA : EntityData :=
  { entity_id := some "A",
    endpoints := [{ path := some "/p", methods := [("GET", 0)] }],
    info := .vnone }

/-- An entity descriptor `B` (fresh id) exposing the same endpoint path
`/p` as `A`. -/
def entB : EntityData :=
  { entity_id := some "B",
    endpoints := [{ path := some "/p", methods := [("GET", 1)] }],
    info := .vnone }

/-- The registry as it stands after `A` registered `/p`. -/
def stA : RegistryState :=
  { entities := [("A", entA)],
    endpoints := [(path_template_to_regex "/p", ("A", "/p", [("GET", 0)]))],
    endpoint_patterns := [path_template_to_regex "/p"] }

/-- C7 counterexample: registering the fresh entity `B` whose endpoint path
collides with `A`'s overwrites `A`'s entry under the shared pattern key, and
deregistering `B` then removes that entry entirely, so the endpoints map
does not return to its prior contents. -/
theorem c7_counterexample :
    (deregister_entity "B" (register_entity entB stA).1).1.endpoints ≠
      stA.endpoints := by
  have hp : path_template_to_regex "/p" = "^/p$" := by
    simp [path_template_to_regex, pathTemplateSubst]
  simp [register_entity, register_endpoint, deregister_entity, stA, entA,
    entB, aset, apop, hp, List.lookup, List.filter, List.erase]
lemma lookup_eq_none_iff_keys (k : String) (l : List (String × α)) :
    List.lookup k l = none ↔ ∀ p ∈ l, p.1 ≠ k := by
  induction l with
  | nil => simp
  | cons p rest ih =>
      cases hb : k == p.1
      · have hne : p.1 ≠ k := fun he => by simp [he] at hb
        simp [List.lookup, hb, ih, hne]
      · have he : p.1 = k := (beq_iff_eq.mp hb).symm
        simp [List.lookup, hb, he]

lemma aset_fresh_append (k : String) (v : α) (l : List (String × α))
    (h : ∀ p ∈ l, p.1 ≠ k) : aset k v l = l ++ [(k, v)] := by
  induction l with
  | nil => rfl
  | cons p rest ih =>
      have hp : p.1 ≠ k := h p (List.mem_cons_self _ _)
      simp only [aset, if_neg hp, List.cons_append, List.cons.injEq, true_and]
      exact ih (fun q hq => h q (List.mem_cons_of_mem _ hq))

lemma aset_append_right (k : String) (v : α) (xs ys : List (String × α))
    (h : ∀ p ∈ xs, p.1 ≠ k) : aset k v (xs ++ ys) = xs ++ aset k v ys := by
  induction xs with
  | nil => rfl
  | cons p rest ih =>
      have hp : p.1 ≠ k := h p (List.mem_cons_self _ _)
      simp only [List.cons_append, aset, if_neg hp, List.cons.injEq, true_and]
      exact ih (fun q hq => h q (List.mem_cons_of_mem _ hq))

lemma aset_keys_of_mem (k : String) (v : α) (l : List (String × α))
    (h : k ∈ l.map (fun p => p.1)) :
    (aset k v l).map (fun p => p.1) = l.map (fun p => p.1) := by
  induction l with
  | nil => simp at h
  | cons p rest ih =>
      by_cases hp : p.1 = k
      · simp [aset, hp]
      · have h' : k ∈ rest.map (fun p => p.1) := by
          simp only [List.map_cons, List.mem_cons] at h
          exact h.resolve_left (fun he => hp he.symm)
        simp [aset, hp, ih h']

lemma mem_aset (k : String) (v : α) (p : String × α) (l : List (String × α))
    (hp : p ∈ aset k v l) : p = (k, v) ∨ p ∈ l := by
  induction l with
  | nil => simpa [aset] using hp
  | cons q rest ih =>
      by_cases hq : q.1 = k
      · simp only [aset, if_pos hq, List.mem_cons] at hp
        rcases hp with hp | hp
        · exact Or.inl hp
        · exact Or.inr (List.mem_cons_of_mem _ hp)
      · simp only [aset, if_neg hq, List.mem_cons] at hp
        rcases hp with hp | hp
        · exact Or.inr (hp ▸ List.mem_cons_self _ _)
        · rcases ih hp with h | h
          · exact Or.inl h
          · exact Or.inr (List.mem_cons_of_mem _ h)

lemma apop_append_first (k : String) (v : α) (xs ys : List (String × α))
    (h : ∀ p ∈ xs, p.1 ≠ k) : apop k (xs ++ (k, v) :: ys) = xs ++ ys := by
  induction xs with
  | nil => simp [apop]
  | cons p rest ih =>
      have hp : p.1 ≠ k := h p (List.mem_cons_self _ _)
      simp only [List.cons_append, apop, if_neg hp, List.cons.injEq, true_and]
      exact ih (fun q hq => h q (List.mem_cons_of_mem _ hq))

lemma lookup_append_fresh (k : String) (v : α) (xs : List (String × α))
    (h : ∀ p ∈ xs, p.1 ≠ k) :
    List.lookup k (xs ++ [(k, v)]) = some v := by
  induction xs with
  | nil => simp [List.lookup]
  | cons p rest ih =>
      have hp : p.1 ≠ k := h p (List.mem_cons_self _ _)
      have hb : (k == p.1) = false := beq_eq_false_iff_ne.mpr (Ne.symm hp)
      simp only [List.cons_append, List.lookup, hb]
      exact ih (fun q hq => h q (List.mem_cons_of_mem _ hq))

lemma foldl_apop_strip (ys : List (String × α)) :
    ∀ xs : List (String × α),
      (ys.map (fun p => p.1)).Nodup →
      (∀ p ∈ xs, ∀ k ∈ ys.map (fun p => p.1), p.1 ≠ k) →
      (ys.map (fun p => p.1)).foldl (fun l k => apop k l) (xs ++ ys) = xs := by
  induction ys with
  | nil => intro xs _ _; simp
  | cons q rest ih =>
      intro xs hnd hdis
      simp only [List.map_cons, List.foldl_cons]
      have hq : ∀ p ∈ xs, p.1 ≠ q.1 := fun p hp =>
        hdis p hp q.1 (by simp)
      have hstep : apop q.1 (xs ++ q :: rest) = xs ++ rest := by
        have := apop_append_first q.1 q.2 xs rest hq
        simpa using this
      rw [hstep]
      exact ih xs (List.nodup_cons.mp hnd).2
        (fun p hp k hk => hdis p hp k (by simp [hk]))

lemma foldl_erase_strip (ys : List String) :
    ∀ xs : List String, ys.Nodup → (∀ k ∈ ys, k ∉ xs) →
      ys.foldl (fun l k => l.erase k) (xs ++ ys) = xs := by
  induction ys with
  | nil => intro xs _ _; simp
  | cons q rest ih =>
      intro xs hnd hdis
      simp only [List.foldl_cons]
      have hq : q ∉ xs := hdis q (List.mem_cons_self _ _)
      have hstep : (xs ++ q :: rest).erase q = xs ++ rest := by
        rw [List.erase_append_right _ hq, List.erase_cons_head]
      rw [hstep]
      have hnd' := List.nodup_cons.mp hnd
      refine ih xs hnd'.2 (fun k hk => ?_)
      exact hdis k (List.mem_cons_of_mem _ hk)
lemma register_fold_inv (eid : String) (eps : List Endpoint) :
    ∀ (ents : List (String × EntityData))
      (base : List (String × (String × String × List (String × Nat))))
      (basePats : List String)
      (newEps : List (String × (String × String × List (String × Nat)))),
      (∀ p ∈ newEps, p.2.1 = eid) →
      (newEps.map (fun p => p.1)).Nodup →
      (∀ k ∈ newEps.map (fun p => p.1),
        (∀ p ∈ base, p.1 ≠ k) ∧ k ∉ basePats) →
      (∀ ep ∈ eps, ∀ path, ep.path = some path → path ≠ "" →
        ep.methods ≠ [] →
        (∀ p ∈ base, p.1 ≠ path_template_to_regex path) ∧
        path_template_to_regex path ∉ basePats) →
      ∃ newEps2,
        eps.foldl (fun s ep => register_endpoint eid ep s)
          { entities := ents, endpoints := base ++ newEps,
            endpoint_patterns := basePats ++ newEps.map (fun p => p.1) } =
          { entities := ents, endpoints := base ++ newEps2,
            endpoint_patterns := basePats ++ newEps2.map (fun p => p.1) } ∧
        (∀ p ∈ newEps2, p.2.1 = eid) ∧
        (newEps2.map (fun p => p.1)).Nodup ∧
        (∀ k ∈ newEps2.map (fun p => p.1),
          (∀ p ∈ base, p.1 ≠ k) ∧ k ∉ basePats) := by
  induction eps with
  | nil =>
      intro ents base basePats newEps hval hnd hfresh _
      exact ⟨newEps, rfl, hval, hnd, hfresh⟩
  | cons ep eps' ih =>
      intro ents base basePats newEps hval hnd hfresh heps
      have hrest : ∀ ep' ∈ eps', ∀ path, ep'.path = some path → path ≠ "" →
          ep'.methods ≠ [] →
          (∀ p ∈ base, p.1 ≠ path_template_to_regex path) ∧
          path_template_to_regex path ∉ basePats :=
        fun ep' h' => heps ep' (List.mem_cons_of_mem _ h')
      simp only [List.foldl_cons]
      cases hpath : ep.path with
      | none =>
          have hstep : register_endpoint eid ep
              { entities := ents, endpoints := base ++ newEps,
                endpoint_patterns := basePats ++ newEps.map (fun p => p.1) } =
              { entities := ents, endpoints := base ++ newEps,
                endpoint_patterns := basePats ++ newEps.map (fun p => p.1) } := by
            simp [register_endpoint, hpath]
          rw [hstep]
          exact ih ents base basePats newEps hval hnd hfresh hrest
      | some path =>
          by_cases hemp : path = ""
          · have hstep : register_endpoint eid ep
                { entities := ents, endpoints := base ++ newEps,
                  endpoint_patterns := basePats ++ newEps.map (fun p => p.1) } =
                { entities := ents, endpoints := base ++ newEps,
                  endpoint_patterns := basePats ++ newEps.map (fun p => p.1) } := by
              simp [register_endpoint, hpath, hemp]
            rw [hstep]
            exact ih ents base basePats newEps hval hnd hfresh hrest
          · by_cases hm : ep.methods.isEmpty
            · have hstep : register_endpoint eid ep
                  { entities := ents, endpoints := base ++ newEps,
                    endpoint_patterns := basePats ++ newEps.map (fun p => p.1) } =
                  { entities := ents, endpoints := base ++ newEps,
                    endpoint_patterns := basePats ++ newEps.map (fun p => p.1) } := by
                simp [register_endpoint, hpath, hemp, hm]
              rw [hstep]
              exact ih ents base basePats newEps hval hnd hfresh hrest
            · have hmne : ep.methods ≠ [] := by
                simpa [List.isEmpty_iff] using hm
              obtain ⟨hqbase, hqpats⟩ :=
                heps ep (List.mem_cons_self _ _) path hpath hemp hmne
              by_cases hqmem :
                  path_template_to_regex path ∈ newEps.map (fun p => p.1)
              · -- the pattern collides within the entity: dict overwrite in place
                have hset : aset (path_template_to_regex path)
                    (eid, path, ep.methods) (base ++ newEps) =
                    base ++ aset (path_template_to_regex path)
                      (eid, path, ep.methods) newEps :=
                  aset_append_right _ _ _ _ hqbase
                have hkeys : (aset (path_template_to_regex path)
                    (eid, path, ep.methods) newEps).map (fun p => p.1) =
                    newEps.map (fun p => p.1) :=
                  aset_keys_of_mem _ _ _ hqmem
                have hqin : path_template_to_regex path ∈
                    basePats ++ newEps.map (fun p => p.1) :=
                  List.mem_append_right _ hqmem
                have hstep : register_endpoint eid ep
                    { entities := ents, endpoints := base ++ newEps,
                      endpoint_patterns :=
                        basePats ++ newEps.map (fun p => p.1) } =
                    { entities := ents,
                      endpoints := base ++ aset (path_template_to_regex path)
                        (eid, path, ep.methods) newEps,
                      endpoint_patterns := basePats ++
                        (aset (path_template_to_regex path)
                          (eid, path, ep.methods) newEps).map (fun p => p.1) } := by
                  simp [register_endpoint, hpath, hemp, hm, hset, hqin, hkeys]
                rw [hstep]
                refine ih ents base basePats _ ?_ ?_ ?_ hrest
                · intro p hp
                  rcases mem_aset _ _ _ _ hp with h | h
                  · rw [h]
                  · exact hval p h
                · rw [hkeys]
                  exact hnd
                · rw [hkeys]
                  exact hfresh
              · -- fresh pattern: dict append
                have hfreshall : ∀ p ∈ base ++ newEps,
                    p.1 ≠ path_template_to_regex path := by
                  intro p hp
                  rcases List.mem_append.mp hp with h | h
                  · exact hqbase p h
                  · intro he
                    exact hqmem (he ▸ List.mem_map_of_mem _ h)
                have hset : aset (path_template_to_regex path)
                    (eid, path, ep.methods) (base ++ newEps) =
                    base ++ (newEps ++
                      [(path_template_to_regex path, (eid, path, ep.methods))]) := by
                  rw [aset_fresh_append _ _ _ hfreshall, List.append_assoc]
                have hqnotin : path_template_to_regex path ∉
                    basePats ++ newEps.map (fun p => p.1) := by
                  simp only [List.mem_append]
                  rintro (h | h)
                  · exact hqpats h
                  · exact hqmem h
                have hstep : register_endpoint eid ep
                    { entities := ents, endpoints := base ++ newEps,
                      endpoint_patterns :=
                        basePats ++ newEps.map (fun p => p.1) } =
                    { entities := ents,
                      endpoints := base ++ (newEps ++
                        [(path_template_to_regex path, (eid, path, ep.methods))]),
                      endpoint_patterns := basePats ++
                        ((newEps ++
                          [(path_template_to_regex path,
                            (eid, path, ep.methods))]).map (fun p => p.1)) } := by
                  simp [register_endpoint, hpath, hemp, hm, hset, hqnotin,
                    List.append_assoc]
                rw [hstep]
                refine ih ents base basePats _ ?_ ?_ ?_ hrest
                · intro p hp
                  rcases List.mem_append.mp hp with h | h
                  · exact hval p h
                  · simp only [List.mem_singleton] at h
                    rw [h]
                · simp only [List.map_append, List.map_cons, List.map_nil]
                  rw [List.nodup_append]
                  refine ⟨hnd, List.nodup_singleton _, ?_⟩
                  intro k hk
                  simp only [List.mem_singleton]
                  intro he
                  exact hqmem (he ▸ hk)
                · intro k hk
                  simp only [List.map_append, List.map_cons, List.map_nil,
                    List.mem_append, List.mem_singleton] at hk
                  rcases hk with hk | hk
                  · exact hfresh k hk
                  · subst hk
                    exact ⟨hqbase, hqpats⟩
/-- C7 amended: registering a fresh entity and then deregistering it returns
the registry's entities, endpoints, and compiled endpoint-pattern maps to
exactly their prior contents, provided no endpoint pattern of the new entity
collides with an already-registered endpoint pattern (on a collision the
dict assignment overwrites the other entity's entry and deregistration then
removes it — see the counterexample). -/
theorem c7_register_deregister_roundtrip (st : RegistryState)
    (ed : EntityData) (eid : String)
    (hid : ed.entity_id = some eid) (hne : eid ≠ "")
    (hfresh : List.lookup eid st.entities = none)
    (hend : ∀ p ∈ st.endpoints, p.2.1 ≠ eid)
    (hpat : ∀ ep ∈ ed.endpoints, ∀ path, ep.path = some path → path ≠ "" →
        ep.methods ≠ [] →
        (∀ p ∈ st.endpoints, p.1 ≠ path_template_to_regex path) ∧
        path_template_to_regex path ∉ st.endpoint_patterns) :
    (register_entity ed st).2 = true ∧
    deregister_entity eid (register_entity ed st).1 = (st, true) := by
  obtain ⟨ents, base, basePats⟩ := st
  obtain ⟨newEps2, hfold, hval2, hnd2, hfresh2⟩ :=
    register_fold_inv eid ed.endpoints ents base basePats []
      (by simp) (by simp) (by simp) hpat
  simp only [List.append_nil, List.map_nil] at hfold
  have hkeys_ents : ∀ p ∈ ents, p.1 ≠ eid :=
    (lookup_eq_none_iff_keys _ _).mp hfresh
  have hreg1 : register_entity ed ⟨ents, base, basePats⟩ =
      (⟨ents ++ [(eid, ed)], base ++ newEps2,
        basePats ++ newEps2.map (fun p => p.1)⟩, true) := by
    simp only [register_entity, hid, if_neg hne, hfold]
    rw [aset_fresh_append _ _ _ hkeys_ents]
  refine ⟨by rw [hreg1], ?_⟩
  rw [hreg1]
  have hlk : List.lookup eid (ents ++ [(eid, ed)]) = some ed :=
    lookup_append_fresh _ _ _ hkeys_ents
  have hrem : ((base ++ newEps2).filter (fun p => p.2.1 = eid)).map
      (fun p => p.1) = newEps2.map (fun p => p.1) := by
    rw [List.filter_append]
    have h1 : base.filter (fun p => p.2.1 = eid) = [] := by
      rw [List.filter_eq_nil_iff]
      intro p hp
      simpa using hend p hp
    have h2 : newEps2.filter (fun p => p.2.1 = eid) = newEps2 := by
      rw [List.filter_eq_self]
      intro p hp
      simpa using hval2 p hp
    rw [h1, h2, List.nil_append]
  have hpopents : apop eid (ents ++ [(eid, ed)]) = ents := by
    have := apop_append_first eid ed ents [] hkeys_ents
    simpa using this
  have hpopeps : (newEps2.map (fun p => p.1)).foldl
      (fun eps k => apop k eps) (base ++ newEps2) = base :=
    foldl_apop_strip newEps2 base hnd2
      (fun p hp k hk => (hfresh2 k hk).1 p hp)
  have hpoppats : (newEps2.map (fun p => p.1)).foldl
      (fun ps k => ps.erase k) (basePats ++ newEps2.map (fun p => p.1)) =
      basePats :=
    foldl_erase_strip _ basePats hnd2 (fun k hk => (hfresh2 k hk).2)
  simp only [deregister_entity, hlk, Option.isNone_some, Bool.false_eq_true,
    if_false, hrem, hpopents, hpopeps, hpoppats]
/-- A fresh entity descriptor `B` with the non-colliding endpoint path
`/q`. -/
def entC : EntityData :=
  { entity_id := some "B",
    endpoints := [{ path := some "/q", methods := [("GET", 2)] }],
    info := .vnone }

/-- Witness for C7 (amended): registering and deregistering the fresh,
non-colliding entity `B` on a registry already holding `A` restores it
exactly. -/
theorem c7_register_deregister_roundtrip_witness :
    (entC.entity_id = some "B" ∧ "B" ≠ "" ∧
     List.lookup "B" stA.entities = none ∧
     (∀ p ∈ stA.endpoints, p.2.1 ≠ "B") ∧
     (∀ ep ∈ entC.endpoints, ∀ path, ep.path = some path → path ≠ "" →
        ep.methods ≠ [] →
        (∀ p ∈ stA.endpoints, p.1 ≠ path_template_to_regex path) ∧
        path_template_to_regex path ∉ stA.endpoint_patterns)) ∧
    ((register_entity entC stA).2 = true ∧
     deregister_entity "B" (register_entity entC stA).1 = (stA, true)) := by
  have hpv : path_template_to_regex "/p" = "^/p$" := by
    simp [path_template_to_regex, pathTemplateSubst]
  have hqv : path_template_to_regex "/q" = "^/q$" := by
    simp [path_template_to_regex, pathTemplateSubst]
  have h1 : entC.entity_id = some "B" := rfl
  have h2 : ("B" : String) ≠ "" := by decide
  have h3 : List.lookup "B" stA.entities = none := rfl
  have h4 : ∀ p ∈ stA.endpoints, p.2.1 ≠ "B" := by
    intro p hp
    simp only [stA, List.mem_singleton] at hp
    subst hp
    decide
  have h5 : ∀ ep ∈ entC.endpoints, ∀ path, ep.path = some path → path ≠ "" →
      ep.methods ≠ [] →
      (∀ p ∈ stA.endpoints, p.1 ≠ path_template_to_regex path) ∧
      path_template_to_regex path ∉ stA.endpoint_patterns := by
    intro ep hep path hpath hne2 hm
    simp only [entC, List.mem_singleton] at hep
    subst hep
    simp only [Option.some.injEq] at hpath
    subst hpath
    refine ⟨?_, ?_⟩
    · intro p hp
      simp only [stA, List.mem_singleton] at hp
      subst hp
      simp only [hpv, hqv]
      decide
    · simp only [stA, hqv, hpv, List.mem_singleton]
      decide
  exact ⟨⟨h1, h2, h3, h4, h5⟩,
    c7_register_deregister_roundtrip stA entC "B" h1 h2 h3 h4 h5⟩
